/-
  Verification of the QPACK codec core in `src/hpack/qpack.py` and the
  supporting structures in `src/hpack/struct.py` (repository steamraven/hpack).

  The embedding below translates the Python source faithfully:
  * byte strings become `List Nat` (each element a byte value),
  * fallible code returns `Option`/`Except`,
  * a Python exception that is NOT a QPACK error (TypeError, struct.error,
    NameError, AttributeError, IndexError, AssertionError) is modelled as the
    error value `QErr.crash` or as `none`,
  * the mutable decoder/encoder objects become explicit state passing.

  Several modules imported by `qpack.py` (`hpack/table.py`, `hpack/hpack.py`,
  `hpack/huffman_table.py`, `hpack/compat.py`) are not part of the sources;
  definitions for them are modelled from the specification and are marked
  `Modelled from the spec:` in their doc comments.
-/
import Mathlib

namespace QpackV

/-- Python `int.bit_length`: number of bits needed to represent `n`,
`bit_length 0 = 0`. -/
def bit_length (n : Nat) : Nat :=
  if n = 0 then 0 else Nat.log2 n + 1

/-- Embedding of `encode_quic_int` (src/hpack/qpack.py lines 35-67).

The source computes `word_length = (bit_length + 2 + 7) // 8` and then runs an
`if` chain in which the second test (`word_length <= 2`) is an `if`, not an
`elif`.  Every branch ends in a Python exception:

* `word_length == 1` (i.e. the integer fits 6 bits): the first test sets
  `f = "!B"`, then the non-`elif` second test also fires and sets `f = "!H"`
  while the buffer stays 1 byte long, so `struct.pack_into("!H", 1-byte buffer)`
  raises `struct.error`;
* `word_length == 2`: the 2-byte pack succeeds, but the line
  `f[0] |= size << 6` mutates the format STRING `f`, raising `TypeError`
  (the author meant `elements[0]`);
* `word_length <= 4`: the 4-byte pack succeeds, then the same `TypeError`;
* `word_length <= 8`: `f = "!L"` is a 4-byte struct format, so the pack raises
  `struct.error` once the integer needs more than 32 bits, and otherwise the
  same `TypeError` follows;
* larger integers raise `ValueError`.

So the function raises on every input; the embedding returns `none` on every
path (a comment on each branch names the Python exception). -/
def encode_quic_int (i : Nat) : Option (List Nat) :=
  let word_length := (bit_length i + 2 + 7) / 8
  if word_length = 1 then
    none -- falls into the `word_length <= 2` branch: pack "!H" into 1 byte, struct.error
  else if word_length ≤ 2 then
    none -- pack succeeds, then `f[0] |= size << 6` on the format string: TypeError
  else if word_length ≤ 4 then
    none -- pack succeeds, then TypeError as above
  else if word_length ≤ 8 then
    none -- "!L" packs only 4 bytes: struct.error for > 32-bit values, else TypeError
  else
    none -- ValueError: "Integer can not be encoded in 8 bytes"

/-- Embedding of `decode_quic_int` (src/hpack/qpack.py lines 68-84).

`size = data[0] >> 6` selects a struct format, but `size == 3` selects
`f = "!I"` (4 bytes) with `word_length = 8`; `struct.unpack` demands that the
buffer length equal the format size exactly, and even when it does, `unpack`
returns a TUPLE, so the following line `integer -= size << (8*word_length-2)`
raises `TypeError`.  Hence the function raises on every input and the embedding
returns `none` on every path. -/
def decode_quic_int (data : List Nat) : Option Nat :=
  match data with
  | [] => none -- `data[0]` raises IndexError
  | b :: _ =>
    let size := b >>> 6
    let word_length := if size = 3 then 8 else if size = 2 then 4 else if size = 1 then 2 else 1
    -- the struct format chosen for size 3 is "!I", which is 4 bytes wide
    let fmt_width := if size = 3 then 4 else word_length
    if data.length = fmt_width then
      none -- unpack succeeds but returns a tuple: `integer -= ...` raises TypeError
    else
      none -- struct.error: buffer length does not match the format size

theorem encode_quic_int_eq_none (i : Nat) : encode_quic_int i = none := by
  unfold encode_quic_int
  dsimp only
  repeat' split
  all_goals rfl

theorem decode_quic_int_eq_none (d : List Nat) : decode_quic_int d = none := by
  unfold decode_quic_int
  match d with
  | [] => rfl
  | b :: rest =>
    dsimp only
    repeat' split
    all_goals rfl

/-- The five field-line representations of the spec's decode table, plus the
source's "Invalid instruction" case. -/
inductive FieldRep where
  | indexed
  | literalNameRef
  | literalNoRef
  | literalNameRefPost
  | indexedPost
  | invalid
deriving DecidableEq

/-- Embedding of the representation dispatch in `Decoder.decode`
(src/hpack/qpack.py lines 329-345): the chain of mask tests on the first byte
of a field line, in source order.  Note the third test `b &&& 0xE0 == 0x30`
(commented `0b011 - literal` in the source): `0x30` has bit `0x10` set, which
the mask `0xE0` clears, so the test can never succeed. -/
def decode_dispatch (b : Nat) : FieldRep :=
  if b &&& 0x80 = 0x80 then .indexed
  else if b &&& 0xC0 = 0x00 then .literalNameRef
  else if b &&& 0xE0 = 0x30 then .literalNoRef
  else if b &&& 0xF0 = 0x50 then .literalNameRefPost
  else if b &&& 0xF0 = 0x40 then .indexedPost
  else .invalid

theorem and_0xE0_ne_0x30 (b : Nat) : b &&& 0xE0 ≠ 0x30 := by
  intro h
  have h4 := congrArg (fun n => n.testBit 4) h
  simp [Nat.testBit_and, show Nat.testBit 224 4 = false from by decide,
    show Nat.testBit 48 4 = true from by decide] at h4

theorem decode_dispatch_ne_literalNoRef (b : Nat) :
    decode_dispatch b ≠ FieldRep.literalNoRef := by
  unfold decode_dispatch
  split
  · simp
  · split
    · simp
    · split
      · exact absurd ‹b &&& 0xE0 = 0x30› (and_0xE0_ne_0x30 b)
      · split
        · simp
        · split <;> simp

/-- Embedding of `hpack.struct.LinkedList` (src/hpack/struct.py lines 42-126).
The singly linked chain reachable from `head` becomes the list `chain`
(key/value pairs, head first); the aliasing `tail` pointer becomes the index
`tailIdx` of the node it designates inside `chain` (`none` models a Python
`None` tail).  Keys are stream ids and values are numeric thresholds, both
natural numbers. -/
structure LinkedList where
  chain : List (Nat × Nat)
  tailIdx : Option Nat
deriving DecidableEq

/-- The `while` loop of `LinkedList.insert` (src/hpack/struct.py lines 85-93):
walk the nodes after the head and splice the new node in front of the first
node whose value is `>= value`; if the loop walks off the end the source hits
`assert False` (modelled as `none`).  Returns the new sublist and the position
of the spliced node within it. -/
def insertLoop (k v : Nat) : List (Nat × Nat) → Option (List (Nat × Nat) × Nat)
  | [] => none -- the loop exhausts the chain: `assert False, "Should not get here"`
  | x :: rest =>
    if v ≤ x.2 then
      some ((k, v) :: x :: rest, 0)
    else
      match insertLoop k v rest with
      | none => none
      | some (l, p) => some (x :: l, p + 1)

/-- Embedding of `LinkedList.insert` (src/hpack/struct.py lines 71-93).
`none` models a Python exception: dereferencing a `None` tail
(`AttributeError`) or the `assert False` at the end of the scan.  In the
append branch the source sets `tail.next = new_node`, which in pointer terms
cuts loose whatever followed the old tail, hence the `take`. -/
def LinkedList.insert (l : LinkedList) (k v : Nat) : Option LinkedList :=
  match l.chain with
  | [] => some ⟨[(k, v)], some 0⟩
  | hd :: tl =>
    match l.tailIdx with
    | none => none -- `self.tail.value` with tail is None: AttributeError
    | some ti =>
      match (hd :: tl)[ti]? with
      | none => none -- a dangling tail index has no pointer-model counterpart
      | some tn =>
        if tn.2 ≤ v then
          -- `self.tail.next = new_node; self.tail = new_node`
          some ⟨(hd :: tl).take (ti + 1) ++ [(k, v)], some (ti + 1)⟩
        else if v < hd.2 then
          -- prepend before the head
          some ⟨(k, v) :: hd :: tl, some (ti + 1)⟩
        else
          match insertLoop k v tl with
          | none => none
          | some (tl', p) =>
            -- the new node lands at position p+1; the tail node's index shifts
            -- exactly when the splice happened before it
            some ⟨hd :: tl', some (if p + 1 ≤ ti then ti + 1 else ti)⟩

/-- Embedding of `LinkedList.popMany` (src/hpack/struct.py lines 59-68).
The loop pops nodes while `node.value <= value` and collects them in the local
`results`, then sets `self.head` to the first surviving node — but the
function body has NO return statement, so the caller receives Python `None`:
the first component is always `none`.  The tail pointer is not updated
(the source marks this `TODO: handle tail`), so `tailIdx` is left as is. -/
def LinkedList.popMany (l : LinkedList) (v : Nat) :
    Option (List (Nat × Nat)) × LinkedList :=
  (none, ⟨l.chain.dropWhile (fun e => decide (e.2 ≤ v)), l.tailIdx⟩)

/-- The local `results` list that `LinkedList.popMany` builds and then fails
to return: the popped `(key, value)` pairs in chain order. -/
def popManyResults (l : LinkedList) (v : Nat) : List (Nat × Nat) :=
  l.chain.takeWhile (fun e => decide (e.2 ≤ v))

/-- Embedding of `LinkedList.__getitem__` (src/hpack/struct.py lines 113-118),
with explicit fuel.  The loop `while node: if node.key == key: return ...`
never executes `node = node.next`, so the cursor stays on the head forever.
`none` means the fuel ran out (the loop is still running); `some none` models
the `KeyError`; `some (some v)` a returned value. -/
def getItemLoop (key : Nat) (node : Option (Nat × Nat)) : Nat → Option (Option Nat)
  | 0 => none
  | fuel + 1 =>
    match node with
    | none => some none -- loop exits: `raise KeyError`
    | some n =>
      if n.1 = key then some (some n.2)
      else getItemLoop key node fuel -- the source never advances `node`

def LinkedList.getItem (l : LinkedList) (key fuel : Nat) : Option (Option Nat) :=
  getItemLoop key l.chain.head? fuel

/-- Embedding of `LinkedList.__setitem__` (src/hpack/struct.py lines 119-126),
with explicit fuel; same never-advancing loop as `__getitem__`.  On a head hit
it overwrites the head node's value and returns the previous value. -/
def LinkedList.setItem (l : LinkedList) (key value fuel : Nat) :
    Option (Option (Nat × LinkedList)) :=
  match fuel with
  | 0 => none
  | fuel + 1 =>
    match l.chain with
    | [] => some none -- loop exits: `raise KeyError`
    | (k, v) :: rest =>
      if k = key then some (some (v, ⟨(k, value) :: rest, l.tailIdx⟩))
      else l.setItem key value fuel -- the source never advances `node`

/-- Chain values are nondecreasing from head to tail (Boolean, executable). -/
def sortedV : List (Nat × Nat) → Bool
  | [] => true
  | [_] => true
  | a :: b :: rest => decide (a.2 ≤ b.2) && sortedV (b :: rest)

/-- Value of the last node of a chain (0 for the empty chain). -/
def lastV : List (Nat × Nat) → Nat
  | [] => 0
  | [x] => x.2
  | _ :: rest => lastV rest

/-- Well-formedness of the tail pointer: it designates the last node reachable
from the head (and is `None` exactly when the list is empty). -/
def LinkedList.WF (l : LinkedList) : Prop :=
  (l.chain = [] ∧ l.tailIdx = none) ∨
  (l.chain ≠ [] ∧ l.tailIdx = some (l.chain.length - 1))

instance (l : LinkedList) : Decidable l.WF := by
  unfold LinkedList.WF
  infer_instance

theorem getq_lastV : ∀ (tl : List (Nat × Nat)) (hd : Nat × Nat),
    ((hd :: tl)[tl.length]?).map Prod.snd = some (lastV (hd :: tl)) := by
  intro tl
  induction tl with
  | nil => intro hd; simp [lastV]
  | cons a t ih =>
    intro hd
    show ((hd :: a :: t)[t.length + 1]?).map Prod.snd = some (lastV (hd :: a :: t))
    rw [List.getElem?_cons_succ]
    simpa [lastV] using ih a

theorem sortedV_append_last (xs : List (Nat × Nat)) (y : Nat × Nat)
    (hs : sortedV xs = true) (hl : lastV xs ≤ y.2) : sortedV (xs ++ [y]) = true := by
  induction xs with
  | nil => simp [sortedV]
  | cons a rest ih =>
    cases rest with
    | nil =>
      simp only [lastV] at hl
      simpa [sortedV] using hl
    | cons b t =>
      have hab : a.2 ≤ b.2 ∧ sortedV (b :: t) = true := by
        simpa [sortedV] using hs
      have hl' : lastV (b :: t) ≤ y.2 := by simpa [lastV] using hl
      have hres := ih hab.2 hl'
      simpa [sortedV, hab.1] using hres

theorem insertLoop_cons (k v : Nat) : ∀ (xs : List (Nat × Nat)) (hd : Nat × Nat),
    sortedV (hd :: xs) = true → hd.2 ≤ v → v < lastV xs →
    ∃ ys p, insertLoop k v xs = some (ys, p) ∧ sortedV (hd :: ys) = true ∧
      ys.length = xs.length + 1 ∧ p + 1 ≤ xs.length := by
  intro xs
  induction xs with
  | nil =>
    intro hd _ _ hlt
    exact absurd hlt (by simp [lastV])
  | cons a rest ih =>
    intro hd hsort hhd hlt
    have hsa : hd.2 ≤ a.2 ∧ sortedV (a :: rest) = true := by
      simpa [sortedV] using hsort
    by_cases hva : v ≤ a.2
    · refine ⟨(k, v) :: a :: rest, 0, ?_, ?_, by simp, by simp⟩
      · simp [insertLoop, hva]
      · simpa [sortedV, hhd, hva] using hsa.2
    · cases rest with
      | nil =>
        simp only [lastV] at hlt
        exact absurd (le_of_lt hlt) hva
      | cons b t =>
        have hlt' : v < lastV (b :: t) := by simpa [lastV] using hlt
        obtain ⟨ys, p, heq, hsort', hlen, hp⟩ :=
          ih a hsa.2 (le_of_lt (lt_of_not_ge hva)) hlt'
        refine ⟨a :: ys, p + 1, ?_, ?_, by simp [hlen],
          by simp only [List.length_cons] at hp ⊢; omega⟩
        · rw [insertLoop, if_neg hva, heq]
        · cases ys with
          | nil => simp at hlen
          | cons y ys' => simpa [sortedV, hsa.1] using hsort'

/-- Claim C10: if a `LinkedList`'s node values are nondecreasing from head to
tail and the tail pointer names the last node reachable from the head, then
`LinkedList.insert` succeeds and preserves both properties. -/
theorem c10_insert_preserves_sorted_and_tail (l : LinkedList) (k v : Nat)
    (hwf : l.WF) (hs : sortedV l.chain = true) :
    ∃ l', l.insert k v = some l' ∧ l'.WF ∧ sortedV l'.chain = true := by
  obtain ⟨chain, tidx⟩ := l
  rcases hwf with ⟨hnil, hti⟩ | ⟨hne, hti⟩
  · simp only at hnil hti
    subst hnil; subst hti
    exact ⟨⟨[(k, v)], some 0⟩, rfl, Or.inr ⟨by simp, by simp⟩, rfl⟩
  · simp only at hne hti hs
    cases chain with
    | nil => exact absurd rfl hne
    | cons hd tl =>
      simp only [List.length_cons, Nat.add_sub_cancel] at hti
      subst hti
      have hget := getq_lastV tl hd
      cases hg : (hd :: tl)[tl.length]? with
      | none => rw [hg] at hget; simp at hget
      | some tn =>
        rw [hg] at hget
        have htv : tn.2 = lastV (hd :: tl) := by simpa using hget
        by_cases h1 : tn.2 ≤ v
        · refine ⟨⟨(hd :: tl).take (tl.length + 1) ++ [(k, v)], some (tl.length + 1)⟩,
            ?_, ?_, ?_⟩
          · simp only [LinkedList.insert, hg, h1, if_pos]
          · refine Or.inr ⟨by simp, ?_⟩
            have htake : (hd :: tl).take (tl.length + 1) = hd :: tl :=
              List.take_length (hd :: tl)
            simp [htake]
          · have htake : (hd :: tl).take (tl.length + 1) = hd :: tl :=
              List.take_length (hd :: tl)
            rw [htake]
            exact sortedV_append_last (hd :: tl) (k, v) hs (htv ▸ h1)
        · by_cases h2 : v < hd.2
          · refine ⟨⟨(k, v) :: hd :: tl, some (tl.length + 1)⟩, ?_, ?_, ?_⟩
            · simp only [LinkedList.insert, hg]
              rw [if_neg h1, if_pos h2]
            · exact Or.inr ⟨by simp, by simp⟩
            · simpa [sortedV, le_of_lt h2] using hs
          · have h2' : hd.2 ≤ v := le_of_not_lt h2
            have h1' : v < lastV (hd :: tl) := htv ▸ lt_of_not_ge h1
            cases tl with
            | nil =>
              simp only [lastV] at h1'
              exact absurd h1' h2
            | cons a t =>
              have h1t : v < lastV (a :: t) := by simpa [lastV] using h1'
              obtain ⟨ys, p, heq, hsort, hlen, hp⟩ :=
                insertLoop_cons k v (a :: t) hd hs h2' h1t
              refine ⟨⟨hd :: ys, some ((a :: t).length + 1)⟩, ?_, ?_, hsort⟩
              · simp only [LinkedList.insert, hg]
                rw [if_neg h1, if_neg h2, heq]
                dsimp only
                rw [if_pos hp]
              · exact Or.inr ⟨by simp, by simp [hlen]⟩

/-- Witness for Claim C10 at a concrete list: inserting value 2 into the
sorted two-node list with values 1 and 3 (tail at index 1). -/
theorem c10_witness :
    ∃ l', LinkedList.insert ⟨[(1, 1), (2, 3)], some 1⟩ 5 2 = some l' ∧
      l'.WF ∧ sortedV l'.chain = true :=
  c10_insert_preserves_sorted_and_tail ⟨[(1, 1), (2, 3)], some 1⟩ 5 2
    (Or.inr ⟨by decide, rfl⟩) (by decide)

theorem getItemLoop_stuck (key : Nat) (n : Nat × Nat) (h : n.1 ≠ key) :
    ∀ fuel, getItemLoop key (some n) fuel = none := by
  intro fuel
  induction fuel with
  | zero => rfl
  | succ f ih => simp only [getItemLoop, if_neg h]; exact ih

theorem setItem_stuck (key value k v : Nat) (rest : List (Nat × Nat))
    (tidx : Option Nat) (h : k ≠ key) :
    ∀ fuel, LinkedList.setItem ⟨(k, v) :: rest, tidx⟩ key value fuel = none := by
  intro fuel
  induction fuel with
  | zero => rfl
  | succ f ih => simp only [LinkedList.setItem, if_neg h]; exact ih

/-- Claim C9: `__getitem__` and `__setitem__` never advance their cursor, so
for a non-empty list whose head key is not the requested key both loop forever
(no amount of fuel makes them return), while a head hit or an empty list
terminates immediately. -/
theorem c9_lookup_terminates_only_at_head (l : LinkedList) (key fuel : Nat) :
    (∀ k v rest, l.chain = (k, v) :: rest → k ≠ key →
      l.getItem key fuel = none ∧ l.setItem key 0 fuel = none) ∧
    (∀ v rest, l.chain = (key, v) :: rest → 1 ≤ fuel →
      l.getItem key fuel = some (some v)) ∧
    (l.chain = [] → 1 ≤ fuel →
      l.getItem key fuel = some none ∧ l.setItem key 0 fuel = some none) := by
  obtain ⟨chain, tidx⟩ := l
  refine ⟨?_, ?_, ?_⟩
  · intro k v rest hc hk
    simp only at hc
    subst hc
    constructor
    · exact getItemLoop_stuck key (k, v) hk fuel
    · exact setItem_stuck key 0 k v rest tidx hk fuel
  · intro v rest hc hf
    simp only at hc
    subst hc
    obtain ⟨f, rfl⟩ : ∃ f, fuel = f + 1 := ⟨fuel - 1, by omega⟩
    simp [LinkedList.getItem, getItemLoop]
  · intro hc hf
    simp only at hc
    subst hc
    obtain ⟨f, rfl⟩ : ∃ f, fuel = f + 1 := ⟨fuel - 1, by omega⟩
    exact ⟨rfl, rfl⟩

/-- Witness for Claim C9: in the list `[(1, 5), (2, 6)]` the key 2 is present
at the second node, yet lookup and assignment run out of any amount of fuel;
looking up the head key 1 terminates, as does lookup in the empty list. -/
theorem c9_witness :
    LinkedList.getItem ⟨[(1, 5), (2, 6)], some 1⟩ 2 1000 = none ∧
    LinkedList.setItem ⟨[(1, 5), (2, 6)], some 1⟩ 2 0 1000 = none ∧
    LinkedList.getItem ⟨[(1, 5), (2, 6)], some 1⟩ 1 1000 = some (some 5) ∧
    LinkedList.getItem ⟨[], none⟩ 2 1000 = some none := by
  have h2 := c9_lookup_terminates_only_at_head ⟨[(1, 5), (2, 6)], some 1⟩ 2 1000
  have h1 := c9_lookup_terminates_only_at_head ⟨[(1, 5), (2, 6)], some 1⟩ 1 1000
  have h0 := c9_lookup_terminates_only_at_head ⟨[], none⟩ 2 1000
  exact ⟨(h2.1 1 5 [(2, 6)] rfl (by decide)).1, (h2.1 1 5 [(2, 6)] rfl (by decide)).2,
    h1.2.1 5 [(2, 6)] rfl (by decide), (h0.2.2 rfl (by decide)).1⟩

/-- Error kinds.  The QPACK exception classes of src/hpack/exceptions.py all
derive from `QPACKStreamError`; `crash` stands for any non-QPACK Python
exception (TypeError, struct.error, IndexError, AttributeError, ...). -/
inductive QErr where
  | malformed
  | invalidRef
  | invalidTableSize
  | tooLarge
  | tableFull
  | crash
deriving DecidableEq

/-- Modelled from the spec: `decode_integer` lives in `src/hpack/hpack.py`,
which is not among the sources.  Spec section 4.1: an `N`-bit prefix integer
is the masked prefix value when it is below `2^N - 1`, otherwise that maximum
plus continuation bytes of 7 value bits each, high bit meaning "more"; fails
MALFORMED on more than 8 continuation bytes or on truncation.  Returns the
value and the number of bytes consumed. -/
def decode_integer_go : List Nat → Nat → Nat → Nat → Except QErr (Nat × Nat)
  | [], _, _, _ => .error .malformed
  | b :: rest, acc, shift, consumed =>
    if consumed > 8 then .error .malformed
    else
      let acc := acc + (b &&& 0x7F) <<< shift
      if b &&& 0x80 = 0 then .ok (acc, consumed + 1)
      else decode_integer_go rest acc (shift + 7) (consumed + 1)

def decode_integer (data : List Nat) (pfx : Nat) : Except QErr (Nat × Nat) :=
  match data with
  | [] => .error .malformed
  | b :: rest =>
    let maxNum := (1 <<< pfx) - 1
    let idx := b &&& maxNum
    if idx < maxNum then .ok (idx, 1)
    else decode_integer_go rest idx 0 1

/-- Modelled from the spec: the Huffman decoder lives in
`src/hpack/huffman_table.py`, which is not among the sources, and its code
table is not reproduced here.  No claim exercises a Huffman-flagged literal,
so it is modelled as always failing MALFORMED. -/
def decode_huffman (_bs : List Nat) : Option (List Nat) :=
  none

/-- Embedding of `decode_literal` (src/hpack/qpack.py lines 477-486): the bit
at position `prefix - 1` is the Huffman flag, the remaining prefix bits (plus
continuations) give the length, then that many payload bytes follow. -/
def decode_literal (data : List Nat) (pfx : Nat) : Except QErr (List Nat × Nat) :=
  match data with
  | [] => .error .crash -- `data[0]` raises IndexError
  | b :: _ =>
    let p := pfx - 1
    let huff := b &&& (1 <<< p)
    match decode_integer data p with
    | .error e => .error e
    | .ok (len, ci) =>
      let value := (data.drop ci).take len
      if value.length ≠ len then .error .malformed -- "Truncated header block"
      else if huff ≠ 0 then
        match decode_huffman value with
        | some v => .ok (v, ci + len)
        | none => .error .malformed
      else .ok (value, ci + len)

/-- Embedding of `decode_index` (src/hpack/qpack.py lines 488-496): the bit at
position `prefix - 1` is the static flag; a dynamic (non-static) index is
resolved to `base - index` and must not exceed `largest_ref`; a static index
is returned as is, with no check. -/
def decode_index (data : List Nat) (pfx : Nat) (largest_ref base : Int) :
    Except QErr (Int × Bool × Nat) :=
  match data with
  | [] => .error .crash -- `data[0]` raises IndexError
  | b :: _ =>
    let p := pfx - 1
    let static := b &&& (1 <<< p)
    match decode_integer data p with
    | .error e => .error e
    | .ok (index, consumed) =>
      if static ≠ 0 then .ok ((index : Int), true, consumed)
      else
        let idx : Int := base - (index : Int)
        if idx > largest_ref then
          .error .invalidRef -- "Ref greater than declared largest ref"
        else .ok (idx, false, consumed)

/-- Embedding of `decode_index_post` (src/hpack/qpack.py lines 498-503): a
post-base reference resolves to `base + index + 1`, is always dynamic, and
must not exceed `largest_ref`. -/
def decode_index_post (data : List Nat) (pfx : Nat) (largest_ref base : Int) :
    Except QErr (Int × Bool × Nat) :=
  match decode_integer data pfx with
  | .error e => .error e
  | .ok (index, consumed) =>
    let idx : Int := (index : Int) + base + 1
    if idx > largest_ref then
      .error .invalidRef -- "Ref greater than declared largest ref"
    else .ok (idx, false, consumed)

/-- Claim C7: with block prefix `(largest_reference, base)`, a dynamic
pre-base reference with relative index `i` resolves to `base - i`, a post-base
reference to `base + i + 1`, a resolved dynamic index above
`largest_reference` fails INVALID_REF, and a static reference returns the raw
index with no such check (it holds for EVERY `largest_ref`, including those
below the index). -/
theorem c7_index_resolution (data : List Nat) (pfx : Nat) (L base : Int)
    (b : Nat) (i c : Nat) (hd : data.head? = some b)
    (hi : decode_integer data (pfx - 1) = .ok (i, c)) :
    (b &&& (1 <<< (pfx - 1)) ≠ 0 →
      decode_index data pfx L base = .ok ((i : Int), true, c)) ∧
    (b &&& (1 <<< (pfx - 1)) = 0 →
      decode_index data pfx L base =
        if base - (i : Int) > L then .error .invalidRef
        else .ok (base - (i : Int), false, c)) ∧
    (∀ j c', decode_integer data pfx = .ok (j, c') →
      decode_index_post data pfx L base =
        if (j : Int) + base + 1 > L then .error .invalidRef
        else .ok ((j : Int) + base + 1, false, c')) := by
  match data, hd with
  | b :: rest, rfl =>
    refine ⟨?_, ?_, ?_⟩
    · intro hstat
      simp only [decode_index, hi, if_pos hstat]
    · intro hstat
      simp only [decode_index, hi, hstat]
      simp
    · intro j c' hj
      simp only [decode_index_post, hj]

/-- Witness for Claim C7 on the concrete byte `0x02` with a 7-bit field
(`prefix = 7`): the static flag `0x40` is clear, the relative index is 2, so
with `base = 3` the reference resolves to `3 - 2 = 1 ≤ 10`, and the post-base
form resolves to `2 + 3 + 1 = 6 ≤ 10`. -/
theorem c7_witness :
    decode_index [2] 7 10 3 = .ok (1, false, 1) ∧
    decode_index_post [2] 7 10 3 = .ok (6, false, 1) := by
  have h := c7_index_resolution [2] 7 10 3 2 2 1 rfl rfl
  constructor
  · have h2 := h.2.1 (by decide)
    rw [h2, if_neg (by decide)]
    norm_num
  · have h3 := h.2.2 2 1 rfl
    rw [h3, if_neg (by decide)]
    norm_num

/-- Modelled from the spec: the QPACK static table is "read-only, shared by
both peers" and "its contents are assumed given" (out of the spec's scope).
No claim depends on its contents, so it is left empty here. -/
def static_table : List (List Nat × List Nat) := []

/-- Modelled from the spec: `table_entry_size` is imported from the missing
`src/hpack/table.py`; spec section 3 defines entry size as
`32 + |name| + |value|`. -/
def table_entry_size (n v : List Nat) : Nat := 32 + n.length + v.length

/-- Modelled from the spec: the dynamic table `QPACKHeaderTable` lives in the
missing `src/hpack/table.py`.  Spec sections 3 and 4.3: an ordered sequence of
entries (oldest first) keyed by a monotonically increasing absolute index
starting at 1, an insert count (the source calls it `largest_ref`), a byte
capacity `maxsize`, and a `resized` flag the encoder checks. -/
structure QPACKHeaderTable where
  entries : List (Nat × List Nat × List Nat)
  largest_ref : Nat
  maxsize : Nat
  resized : Bool
deriving DecidableEq

def entriesSize (es : List (Nat × List Nat × List Nat)) : Nat :=
  (es.map (fun e => table_entry_size e.2.1 e.2.2)).sum

/-- Modelled from the spec: `get(absolute_index, is_static)` returns the
entry or fails INVALID_REF (spec 4.3); a static reference indexes the static
table directly. -/
def QPACKHeaderTable.get_by_index (t : QPACKHeaderTable) (idx : Int)
    (static : Bool) : Option (List Nat × List Nat) :=
  if static then
    if 0 ≤ idx then static_table[idx.toNat]? else none
  else
    (t.entries.find? (fun e => decide ((e.1 : Int) = idx))).map (fun e => e.2)

/-- Eviction loop used by `add`: drop oldest entries until the new entry fits;
`none` when even an empty table cannot hold it (TABLE_FULL, spec 4.3). -/
def evictFor (needed maxsize : Nat) :
    List (Nat × List Nat × List Nat) → Option (List (Nat × List Nat × List Nat))
  | [] => if needed ≤ maxsize then some [] else none
  | e :: rest =>
    if entriesSize (e :: rest) + needed ≤ maxsize then some (e :: rest)
    else evictFor needed maxsize rest

/-- Modelled from the spec: `insert(name, value)` evicts oldest entries until
the new size fits, appends the entry at absolute index `insert_count + 1` and
bumps the insert count (spec 4.3). -/
def QPACKHeaderTable.add (t : QPACKHeaderTable) (n v : List Nat) :
    Option QPACKHeaderTable :=
  match evictFor (table_entry_size n v) t.maxsize t.entries with
  | none => none -- TABLE_FULL
  | some es =>
    some { t with entries := es ++ [(t.largest_ref + 1, n, v)],
                  largest_ref := t.largest_ref + 1 }

/-- Eviction-only loop for capacity changes. -/
def evictTo (cap : Nat) :
    List (Nat × List Nat × List Nat) → List (Nat × List Nat × List Nat)
  | [] => []
  | e :: rest =>
    if entriesSize (e :: rest) ≤ cap then e :: rest else evictTo cap rest

/-- Modelled from the spec: `set_capacity` evicts down and commits
(spec 4.3); the decoder's `header_table_size` setter assigns
`header_table.maxsize`. -/
def QPACKHeaderTable.set_maxsize (t : QPACKHeaderTable) (new : Nat) :
    QPACKHeaderTable :=
  { t with maxsize := new, entries := evictTo new t.entries }

/-- Embedding of `hpack.struct.HeaderTuple` / `NeverIndexedHeaderTuple`
(src/hpack/struct.py lines 10-39): a name/value pair with the `indexable`
class flag (`false` for the never-indexed variant). -/
structure HeaderTuple where
  name : List Nat
  value : List Nat
  indexable : Bool
deriving DecidableEq

/-- State of a `Decoder` object (src/hpack/qpack.py lines 233-260). -/
structure DecoderState where
  header_table : QPACKHeaderTable
  max_header_list_size : Nat
  max_allowed_table_size : Nat
  blocking_streams : LinkedList
deriving DecidableEq

/-- Embedding of `Decoder._decode_prefix` (src/hpack/qpack.py lines 385-399):
an 8-bit prefix integer `largest_ref`, then a sign bit and a 7-bit prefix
integer `base_delta`; `sign = 1` with `base_delta = 0` is rejected.  Returns
`(largest_ref, base, consumed)`. -/
def decode_preamble (data : List Nat) : Except QErr (Nat × Int × Nat) :=
  match decode_integer data 8 with
  | .error e => .error e
  | .ok (largest_ref, c1) =>
    match (data.drop c1).head? with
    | none => .error .crash -- `data_mem[current_index]` raises IndexError
    | some b =>
      let sign := b &&& 0x80
      match decode_integer (data.drop c1) 7 with
      | .error e => .error e
      | .ok (base_delta, c2) =>
        if sign = 0 then .ok (largest_ref, (largest_ref : Int) + base_delta, c1 + c2)
        else if base_delta ≠ 0 then
          .ok (largest_ref, (largest_ref : Int) - base_delta, c1 + c2)
        else .error .malformed -- "Invalid base delta: -0"

/-- Embedding of `Decoder._decode_indexed` (src/hpack/qpack.py lines
411-417). -/
def Decoder.decode_indexed (tbl : QPACKHeaderTable) (data : List Nat)
    (L base : Int) (post_base : Bool) : Except QErr (HeaderTuple × Nat) :=
  match (if post_base then decode_index_post data 4 L base
         else decode_index data 7 L base) with
  | .error e => .error e
  | .ok (index, static, ci) =>
    match tbl.get_by_index index static with
    | none => .error .invalidRef -- the table `get` fails INVALID_REF (spec 4.3)
    | some nv => .ok (⟨nv.1, nv.2, true⟩, ci)

/-- Embedding of `Decoder._decode_literal_wo_name_ref` (src/hpack/qpack.py
lines 419-428); `0x10` is the never-index bit.  Unreachable from `decode`
(its dispatch test `byte & 0xE0 == 0x30` never succeeds). -/
def Decoder.decode_literal_wo_name_ref (data : List Nat) :
    Except QErr (HeaderTuple × Nat) :=
  match data with
  | [] => .error .crash -- `data[0]` raises IndexError
  | b :: _ =>
    let never_index := b &&& 0x10
    match decode_literal data 4 with
    | .error e => .error e
    | .ok (name, ci) =>
      match decode_literal (data.drop ci) 8 with
      | .error e => .error e
      | .ok (value, c2) => .ok (⟨name, value, never_index = 0⟩, ci + c2)

/-- Embedding of `Decoder._decode_literal_name_ref` (src/hpack/qpack.py lines
431-445): never-index bit `0x08` (post-base, 3-bit index) or `0x20` (pre-base,
5-bit index); the referenced entry supplies the name, the literal the value. -/
def Decoder.decode_literal_name_ref (tbl : QPACKHeaderTable) (data : List Nat)
    (L base : Int) (post_base : Bool) : Except QErr (HeaderTuple × Nat) :=
  match data with
  | [] => .error .crash -- `data[0]` raises IndexError
  | b :: _ =>
    let never_index := if post_base then b &&& 0x08 else b &&& 0x20
    match (if post_base then decode_index_post data 3 L base
           else decode_index data 5 L base) with
    | .error e => .error e
    | .ok (index, static, ci) =>
      match tbl.get_by_index index static with
      | none => .error .invalidRef
      | some nv =>
        match decode_literal (data.drop ci) 8 with
        | .error e => .error e
        | .ok (value, c2) => .ok (⟨nv.1, value, never_index = 0⟩, ci + c2)

/-- The field-line loop of `Decoder.decode` (src/hpack/qpack.py lines
324-358), with fuel (every representation consumes at least one byte, so
`data.length` fuel suffices; exhausted fuel is modelled as a crash).
`headers = none` models the `discard_headers` state in which the block is
still consumed but headers are dropped; `inflated` is the cumulative
`Σ (32 + |name| + |value|)`, which the source accumulates BEFORE comparing
against `max_header_list_size`.  The source's `if not header:` test is always
false (a 2-tuple is truthy) and is omitted. -/
def decode_loop (tbl : QPACKHeaderTable) (maxHLS : Nat) (L base : Int) :
    Nat → List Nat → Option (List HeaderTuple) → Nat →
    Except QErr (Option (List HeaderTuple))
  | _, [], headers, _ => .ok headers
  | 0, _ :: _, _, _ => .error .crash
  | fuel + 1, b :: rest, headers, inflated =>
    let step : Except QErr (HeaderTuple × Nat) :=
      match decode_dispatch b with
      | .indexed => Decoder.decode_indexed tbl (b :: rest) L base false
      | .literalNameRef => Decoder.decode_literal_name_ref tbl (b :: rest) L base false
      | .literalNoRef => Decoder.decode_literal_wo_name_ref (b :: rest)
      | .literalNameRefPost => Decoder.decode_literal_name_ref tbl (b :: rest) L base true
      | .indexedPost => Decoder.decode_indexed tbl (b :: rest) L base true
      | .invalid => .error .malformed -- "Invalid instruction"
    match step with
    | .error e => .error e
    | .ok (hdr, consumed) =>
      match headers with
      | none => decode_loop tbl maxHLS L base fuel ((b :: rest).drop consumed) none inflated
      | some hs =>
        let sz := inflated + table_entry_size hdr.name hdr.value
        if maxHLS < sz then
          decode_loop tbl maxHLS L base fuel ((b :: rest).drop consumed) none sz
        else
          decode_loop tbl maxHLS L base fuel ((b :: rest).drop consumed) (some (hs ++ [hdr])) sz

/-- Outcome of `Decoder.decode`.  `err e a` is a QPACK exception carrying kind
`e` and acknowledgement `a`; `crash` is a non-QPACK Python exception escaping
the method (in particular the `struct.error`/`TypeError` that
`_generate_ack` -> `encode_quic_int` raises INSIDE the `except` handlers). -/
inductive DecodeOutcome where
  | blocked
  | ok (ack : List Nat) (headers : List HeaderTuple)
  | err (e : QErr) (ack : Option (List Nat))
  | crash
deriving DecidableEq

/-- The two `except` handlers of `Decoder.decode` (src/hpack/qpack.py lines
368-374): both recompute the acknowledgement via `_generate_ack(stream_id)`,
i.e. `encode_quic_int`; when that itself raises, the new exception escapes the
handler and the method crashes with no acknowledgement attached. -/
def Decoder.handle_decode_err (e : QErr) (sid : Nat) : DecodeOutcome :=
  match encode_quic_int sid with
  | some a => .err e (some a)
  | none => .crash

/-- Embedding of `Decoder.decode` (src/hpack/qpack.py lines 308-374),
modelled at `raw = True` (the UTF-8 conversion path needs
`hpack._unicode_if_needed` from a missing source file and is unreachable
anyway: the success path computes the acknowledgement first, which always
raises).  Returns the outcome and the new decoder state. -/
def Decoder.decode (st : DecoderState) (sid : Nat) (data : List Nat) :
    DecodeOutcome × DecoderState :=
  match decode_preamble data with
  | .error e => (Decoder.handle_decode_err e sid, st)
  | .ok (L, base, c) =>
    -- `_check_blocking`: largest_ref beyond the table's insert count parks the stream
    if st.header_table.largest_ref < L then
      match st.blocking_streams.insert sid L with
      | some bs => (.blocked, { st with blocking_streams := bs })
      | none => (Decoder.handle_decode_err .crash sid, st)
    else
      match decode_loop st.header_table st.max_header_list_size (L : Int) base
          data.length (data.drop c) (some []) 0 with
      | .error e => (Decoder.handle_decode_err e sid, st)
      | .ok headers? =>
        -- `_assert_valid_table_size`
        if st.max_allowed_table_size < st.header_table.maxsize then
          (Decoder.handle_decode_err .invalidTableSize sid, st)
        else
          match headers? with
          | none => (Decoder.handle_decode_err .tooLarge sid, st) -- QPACKOverflowError
          | some hs =>
            match encode_quic_int sid with
            | some a => (.ok a hs, st)
            | none => (Decoder.handle_decode_err .crash sid, st)

/-- Embedding of `Decoder._resume_streams` (src/hpack/qpack.py lines
409-410): a list comprehension over the value `popMany` returns — which is
always Python `None` (the function never returns its `results`), so iterating
it raises `TypeError`: the first component is always `none`. -/
def Decoder.resume_streams (st : DecoderState) : Option (List Nat) × DecoderState :=
  match st.blocking_streams.popMany st.header_table.largest_ref with
  | (none, bs) => (none, { st with blocking_streams := bs })
  | (some popped, bs) => (some (popped.map Prod.fst), { st with blocking_streams := bs })

/-- Embedding of `Decoder._insert_name_ref` (src/hpack/qpack.py lines
447-454): a 7-bit index (static flag in bit 6) resolved against
`largest_ref` as both largest reference and base, name from the table, value
literal, then `add`. -/
def Decoder.insert_name_ref (st : DecoderState) (data : List Nat) :
    Except QErr (DecoderState × Nat) :=
  let L := st.header_table.largest_ref
  match decode_index data 7 (L : Int) (L : Int) with
  | .error e => .error e
  | .ok (index, static, ci) =>
    match st.header_table.get_by_index index static with
    | none => .error .invalidRef
    | some nv =>
      match decode_literal (data.drop ci) 8 with
      | .error e => .error e
      | .ok (value, c2) =>
        match st.header_table.add nv.1 value with
        | none => .error .tableFull
        | some tbl => .ok ({ st with header_table := tbl }, ci + c2)

/-- Embedding of `Decoder._insert_wo_name_ref` (src/hpack/qpack.py lines
456-461): name literal with 6-bit prefix, value literal, then `add`. -/
def Decoder.insert_wo_name_ref (st : DecoderState) (data : List Nat) :
    Except QErr (DecoderState × Nat) :=
  match decode_literal data 6 with
  | .error e => .error e
  | .ok (name, ci) =>
    match decode_literal (data.drop ci) 8 with
    | .error e => .error e
    | .ok (value, c2) =>
      match st.header_table.add name value with
      | none => .error .tableFull
      | some tbl => .ok ({ st with header_table := tbl }, ci + c2)

/-- Embedding of `Decoder._insert_dup` (src/hpack/qpack.py lines 462-467):
a 5-bit relative index below the insert count names the entry to duplicate. -/
def Decoder.insert_dup (st : DecoderState) (data : List Nat) :
    Except QErr (DecoderState × Nat) :=
  match decode_integer data 5 with
  | .error e => .error e
  | .ok (i, ci) =>
    let index : Int := (st.header_table.largest_ref : Int) - i
    match st.header_table.get_by_index index false with
    | none => .error .invalidRef
    | some nv =>
      match st.header_table.add nv.1 nv.2 with
      | none => .error .tableFull
      | some tbl => .ok ({ st with header_table := tbl }, ci)

/-- Embedding of `Decoder._dynamic_table_size_update` (src/hpack/qpack.py
lines 468-475). -/
def Decoder.dynamic_table_size_update (st : DecoderState) (data : List Nat) :
    Except QErr (DecoderState × Nat) :=
  match decode_integer data 5 with
  | .error e => .error e
  | .ok (size, ci) =>
    if st.max_allowed_table_size < size then
      .error .invalidTableSize -- "Encoder exceeded max allowable table size"
    else .ok ({ st with header_table := st.header_table.set_maxsize size }, ci)

/-- The instruction loop of `Decoder.update` (src/hpack/qpack.py lines
283-300), with fuel; an error carries the state mutated so far (the Python
object keeps the effect of the instructions already processed). -/
def update_loop : Nat → DecoderState → List Nat → Option QErr × DecoderState
  | _, st, [] => (none, st)
  | 0, st, _ :: _ => (some .crash, st)
  | fuel + 1, st, b :: rest =>
    let step : Except QErr (DecoderState × Nat) :=
      if b &&& 0x80 = 0x80 then Decoder.insert_name_ref st (b :: rest)
      else if b &&& 0xC0 = 0x40 then Decoder.insert_wo_name_ref st (b :: rest)
      else if b &&& 0xE0 = 0x20 then Decoder.dynamic_table_size_update st (b :: rest)
      else if b &&& 0xE0 = 0x00 then Decoder.insert_dup st (b :: rest)
      else .error .malformed -- "Invalid instruction" (the four masks cover every byte)
    match step with
    | .error e => (some e, st)
    | .ok (st', consumed) => update_loop fuel st' ((b :: rest).drop consumed)

/-- Embedding of `Decoder.update` (src/hpack/qpack.py lines 275-306).  After
the loop the source executes
`return self._generate_ack(0), self._resume_streams()`: the acknowledgement
argument is the CONSTANT 0 — not the number of entries inserted — and
`_generate_ack` calls `encode_quic_int`, which always raises; the `except`
handler wraps that into a `QPACKDecodingError` (modelled `.error .crash`). -/
def Decoder.update (st : DecoderState) (data : List Nat) :
    Except QErr (List Nat × List Nat) × DecoderState :=
  match update_loop data.length st data with
  | (some e, st') => (.error e, st')
  | (none, st') =>
    -- `_assert_valid_table_size`
    if st'.max_allowed_table_size < st'.header_table.maxsize then
      (.error .invalidTableSize, st')
    else
      match encode_quic_int 0 with
      | none => (.error .crash, st')
      | some a =>
        match Decoder.resume_streams st' with
        | (none, st'') => (.error .crash, st'') -- TypeError iterating Python None
        | (some r, st'') => (.ok (a, r), st'')

/-- State of an `Encoder` object (src/hpack/qpack.py lines 92-98). -/
structure EncoderState where
  header_table : QPACKHeaderTable
  table_size_changes : List Nat
  unacked_streams : LinkedList
deriving DecidableEq

/-- Embedding of `Encoder._encode_one` (src/hpack/qpack.py lines 200-209),
which `encode` never actually reaches (its loop crashes on `_to_bytes`
first).  With `can_block = false` it reads the attribute `largest_ack_ref`
that `__init__` never sets (AttributeError); otherwise it either calls the
undefined method `_encode_literal` (AttributeError) or falls off the end
returning Python `None` — it never produces an encoded field line. -/
def Encoder.encode_one (_s : EncoderState) (_header : List Nat × List Nat)
    (_sensitive _can_block : Bool) : Option (List Nat) :=
  none

/-- Embedding of `Encoder.encode` (src/hpack/qpack.py lines 117-198), with
headers already in `(name, value, sensitive)` triple form.  Despite its
docstring promising "two QPACK-encoded header blocks", the method returns a
SINGLE joined byte string (and takes no stream id).  If the table was resized
it calls the undefined method `_encode_table_size_change` (AttributeError);
for any non-empty header list the first loop iteration evaluates the
undefined name `_to_bytes` (NameError); only `encode([])` returns, and it
returns the single empty byte string. -/
def Encoder.encode (s : EncoderState) (headers : List (List Nat × List Nat × Bool))
    (_huffman _can_block : Bool) : Option (List Nat) :=
  if s.header_table.resized then
    none -- AttributeError: `_encode_table_size_change` does not exist
  else
    match headers with
    | [] => some [] -- `b''.join([])`: one byte string; there is no encoder-stream component
    | _ :: _ => none -- NameError: `_to_bytes` is undefined (the import is `to_bytes`)

/-- Claim C1: `encode(stream_id, headers, can_block)` returns the pair
(encoder_stream_bytes, header_block_bytes).  FALSE for the code: the method
takes no stream id, its only `return` yields the SINGLE joined header block
(`some []` for the empty header list — one byte string, no encoder-stream
component), and for every non-empty header list it crashes (NameError on the
undefined `_to_bytes`; `_encode_one` could anyway never return an encoding,
see `Encoder.encode_one`).  This theorem evaluates the embedded method. -/
theorem c1_encode_returns_single_block_or_crashes (s : EncoderState)
    (headers : List (List Nat × List Nat × Bool)) (huffman can_block : Bool)
    (hres : s.header_table.resized = false) :
    Encoder.encode s [] huffman can_block = some [] ∧
    (∀ h t, headers = h :: t → Encoder.encode s headers huffman can_block = none) := by
  constructor
  · simp [Encoder.encode, hres]
  · intro h t hh
    subst hh
    simp [Encoder.encode, hres]

/-- Witness for Claim C1 at a concrete fresh encoder: the empty header list
yields the single empty block, a one-header list crashes. -/
theorem c1_witness :
    Encoder.encode ⟨⟨[], 0, 100, false⟩, [], ⟨[], none⟩⟩ [] true false = some [] ∧
    Encoder.encode ⟨⟨[], 0, 100, false⟩, [], ⟨[], none⟩⟩
      [([0x61], [0x62], false)] true false = none := by
  have h := c1_encode_returns_single_block_or_crashes
    ⟨⟨[], 0, 100, false⟩, [], ⟨[], none⟩⟩ [([0x61], [0x62], false)] true false rfl
  exact ⟨h.1, h.2 ([0x61], [0x62], false) [] rfl⟩

/-- Claim C4: `update` returns as `resumed` the blocked streams whose
threshold is at most the new insert count, in ascending threshold order,
removing them from the tracker.  FALSE for the code: `LinkedList.popMany`
builds that very list in its local `results` but falls off the end without a
`return` statement, so `_resume_streams` iterates Python `None` and raises
`TypeError` — no resumed list is ever produced (and `update` itself crashes
even earlier, while computing `_generate_ack(0)`).  This theorem evaluates
the embedded code: the returned value of `popMany` and the resumed component
are `none` for every state. -/
theorem c4_resume_streams_never_returns_list :
    (∀ (l : LinkedList) (v : Nat), (LinkedList.popMany l v).1 = none) ∧
    (∀ st : DecoderState, (Decoder.resume_streams st).1 = none) :=
  ⟨fun _ _ => rfl, fun _ => rfl⟩

/-- Claim C5: a header block whose prefix declares `largest_reference`
strictly above the table's insert count makes `decode` record
`(stream_id, largest_reference)` in the blocked tracker, return BLOCKED with
no header list, and leave the dynamic table unchanged. -/
theorem c5_blocked_stream_parked (st : DecoderState) (sid : Nat)
    (data : List Nat) (L : Nat) (base : Int) (c : Nat) (bs : LinkedList)
    (hpre : decode_preamble data = .ok (L, base, c))
    (hgt : st.header_table.largest_ref < L)
    (hins : st.blocking_streams.insert sid L = some bs) :
    Decoder.decode st sid data = (.blocked, { st with blocking_streams := bs }) ∧
    ({ st with blocking_streams := bs }).header_table = st.header_table := by
  constructor
  · simp only [Decoder.decode, hpre, if_pos hgt, hins]
  · rfl

/-- Witness for Claim C5: a fresh decoder (insert count 0) and the block
prefix bytes `[0x01, 0x00]` (`largest_reference = 1`, `base = 1`) on stream
9: the stream is parked with threshold 1 and the table is untouched. -/
theorem c5_witness :
    Decoder.decode ⟨⟨[], 0, 100, false⟩, 64, 100, ⟨[], none⟩⟩ 9 [0x01, 0x00] =
      (.blocked, ⟨⟨[], 0, 100, false⟩, 64, 100, ⟨[(9, 1)], some 0⟩⟩) ∧
    (⟨⟨[], 0, 100, false⟩, 64, 100, ⟨[(9, 1)], some 0⟩⟩ : DecoderState).header_table =
      (⟨⟨[], 0, 100, false⟩, 64, 100, ⟨[], none⟩⟩ : DecoderState).header_table :=
  c5_blocked_stream_parked ⟨⟨[], 0, 100, false⟩, 64, 100, ⟨[], none⟩⟩ 9
    [0x01, 0x00] 1 1 2 ⟨[(9, 1)], some 0⟩ rfl (by decide) rfl

/-- Claim C6: a block whose cumulative decoded size exceeds
`max_header_list_size` is parsed to the end and then fails TOO_LARGE, with
the raised per-stream error carrying the section acknowledgement.  The
first half holds (the loop keeps consuming with `discard_headers` set), but
the error carries NO acknowledgement: the `except QPACKStreamError` handler
computes `e.ack = self._generate_ack(stream_id)` and `encode_quic_int`
raises inside the handler, so the method escapes with a bare
`struct.error`/`TypeError`.  Concrete run: table holds entry 1 = ("a","b"),
`max_header_list_size = 40`, block = prefix `(1, 1)` plus two
literal-with-name-reference lines of decoded size 41 each; both lines are
consumed (the second parses after the limit is already exceeded) and the
outcome is a bare crash, not a TOO_LARGE error with an acknowledgement. -/
theorem c6_too_large_crashes_without_ack :
    Decoder.decode ⟨⟨[(1, [0x61], [0x62])], 1, 100, false⟩, 40, 100, ⟨[], none⟩⟩ 7
      [0x01, 0x00,
       0x00, 0x08, 1, 2, 3, 4, 5, 6, 7, 8,
       0x00, 0x08, 1, 2, 3, 4, 5, 6, 7, 8] =
      (.crash, ⟨⟨[(1, [0x61], [0x62])], 1, 100, false⟩, 40, 100, ⟨[], none⟩⟩) := by
  have h1 : Decoder.decode
      ⟨⟨[(1, [0x61], [0x62])], 1, 100, false⟩, 40, 100, ⟨[], none⟩⟩ 7
      [0x01, 0x00,
       0x00, 0x08, 1, 2, 3, 4, 5, 6, 7, 8,
       0x00, 0x08, 1, 2, 3, 4, 5, 6, 7, 8] =
      (Decoder.handle_decode_err .tooLarge 7,
       ⟨⟨[(1, [0x61], [0x62])], 1, 100, false⟩, 40, 100, ⟨[], none⟩⟩) := rfl
  rw [h1]
  simp [Decoder.handle_decode_err, encode_quic_int_eq_none]

/-- Claim C8: a successful `update` returns `ack_bytes` encoding an
insert-count increment equal to the number of entries inserted in the call.
FALSE for the code: the return statement computes `self._generate_ack(0)` —
the constant 0, regardless of how many inserts happened — and that call
itself always raises inside `encode_quic_int`, so `update` raises a wrapped
decoding error and returns no acknowledgement at all.  Concrete run: one
insert-without-name-reference instruction inserting ("a","b"); the table's
insert count does rise from 0 to 1, yet the call errors out. -/
theorem c8_update_ack_is_constant_zero_and_crashes :
    Decoder.update ⟨⟨[], 0, 100, false⟩, 64, 100, ⟨[], none⟩⟩
      [0x41, 0x61, 0x01, 0x62] =
      (.error .crash, ⟨⟨[(1, [0x61], [0x62])], 1, 100, false⟩, 64, 100, ⟨[], none⟩⟩) ∧
    (⟨[(1, [0x61], [0x62])], 1, 100, false⟩ : QPACKHeaderTable).largest_ref =
      (⟨[], 0, 100, false⟩ : QPACKHeaderTable).largest_ref + 1 := by
  exact ⟨rfl, rfl⟩

/-- Claim C2: for every nonnegative integer below 2^62, `encode_quic_int`
produces the shortest 1/2/4/8-byte QUIC variable-length form and
`decode_quic_int` inverts it.  FALSE: both functions raise a Python exception
on every input (see the doc comments of `encode_quic_int` and
`decode_quic_int`); in particular `encode_quic_int 0` raises `struct.error`
because the missing `elif` packs a 2-byte format into a 1-byte buffer.  This
theorem evaluates the embedded code: no input is ever encoded or decoded. -/
theorem c2_quic_int_always_crashes :
    encode_quic_int 0 = none ∧
    (∀ i : Nat, encode_quic_int i = none) ∧
    (∀ d : List Nat, decode_quic_int d = none) := by
  exact ⟨encode_quic_int_eq_none 0, encode_quic_int_eq_none, decode_quic_int_eq_none⟩

/-- Claim C3: the decoder distinguishes field lines as `1xxxxxxx` indexed,
`01Nxxxxx` literal with name reference, `001xxxxx` literal without name
reference, `0001xxxx` literal with post-base name reference, `0000xxxx`
indexed with post-base reference.  FALSE for the code: the source dispatches
`00xxxxxx` (0x00-0x3F, which covers the claim's `001xxxxx`, `0001xxxx` and
`0000xxxx` ranges) to literal-with-name-reference, `0101xxxx` to
literal-with-post-base-name-reference, `0100xxxx` to indexed-post-base, raises
"Invalid instruction" for `0x60`-`0x7F`, and its literal-without-name-reference
branch tests `byte & 0xE0 == 0x30`, which no byte satisfies (dead code,
contradicting its own `0b011` comment).  This theorem evaluates the embedded
dispatch at the diverging bytes and proves the dead branch unreachable. -/
theorem c3_dispatch_diverges :
    decode_dispatch 0x20 = FieldRep.literalNameRef ∧
    decode_dispatch 0x10 = FieldRep.literalNameRef ∧
    decode_dispatch 0x00 = FieldRep.literalNameRef ∧
    decode_dispatch 0x60 = FieldRep.invalid ∧
    decode_dispatch 0x40 = FieldRep.indexedPost ∧
    (∀ b : Nat, decode_dispatch b ≠ FieldRep.literalNoRef) := by
  exact ⟨rfl, rfl, rfl, rfl, rfl, decode_dispatch_ne_literalNoRef⟩

end QpackV
